import Mathlib

/-!
Verification development for the AI Interviewer repository.

The file shallowly embeds the parts of the code base that the verified
properties speak about:

* `calculateZeroCrossingRate` from the frontend `SilenceDetector` component;
* the Redux `interviewSlice` reducers (`setAudioData`, `setWorkflowState`,
  and the `submitResponse.fulfilled` handler) together with the
  `LiveInterview` submit-result handling;
* the backend persistence sanitizers `clean_value` /
  `clean_workflow_state_for_db` and `safe_restore_state` as printed in
  `UNICODE_FIX_SUMMARY.md`;
* the interview session state machine and the audio normalizer described in
  the specification (the Python bodies are not part of this source tree, so
  those definitions are modelled from the spec, and are marked as such).

Machine integers are modelled as `Nat` (byte values, codepoints) and scores
as `ℚ` where a mean is computed.
-/

namespace AIInterviewer

/-! ## Zero-crossing rate (SilenceDetector.tsx, `calculateZeroCrossingRate`) -/

/-- One sign-change test between two consecutive byte samples.  The source
computes `(data[i-1] - 128) / 128` and `(data[i] - 128) / 128` and checks
`(prev >= 0 && curr < 0) || (prev < 0 && curr >= 0)`; dividing by 128 does
not change the sign, so the test is equivalent to comparing the raw byte
against 128. -/
def isCrossing (a b : Nat) : Bool :=
  (decide (128 ≤ a) && decide (b < 128)) || (decide (a < 128) && decide (128 ≤ b))

/-- The number of sign changes between consecutive samples, i.e. the value of
`crossings` after the loop `for (let i = 1; i < data.length; i++)`. -/
def countCrossings : List Nat → Nat
  | [] => 0
  | [_] => 0
  | a :: b :: rest => (if isCrossing a b then 1 else 0) + countCrossings (b :: rest)

/-- Embedding of `calculateZeroCrossingRate` (part_003, lines 107-117):
`return crossings / data.length`.  The JavaScript division is modelled
exactly over `ℚ`. -/
def calculateZeroCrossingRate (data : List Nat) : ℚ :=
  (countCrossings data : ℚ) / (data.length : ℚ)

/-! ## Redux interview slice (part_007) -/

/-- A JavaScript value as far as the interview slice inspects it: a string, a
non-null object (of which the slice only reads the `question` property — an
absent or empty `question` is falsy — and otherwise `JSON.stringify`s the
whole object, carried here in the `stringified` field), or anything else
(`null`, `undefined`, numbers, …), which fails both the `typeof === 'string'`
test and the `value && typeof value === 'object'` test. -/
inductive JsVal where
  | null : JsVal
  | str (s : String) : JsVal
  | obj (question : Option String) (stringified : String) : JsVal

/-- The question-text extraction repeated in the `startInterview.fulfilled`,
`submitResponse.fulfilled` and `retryQuestion.fulfilled` handlers:
a string is used as-is; for an object, `o.question || JSON.stringify(o)`;
otherwise `questionText` keeps its initial value `''`. -/
def extractQuestionText : JsVal → String
  | .str s => s
  | .obj q j =>
      match q with
      | some s => if s = "" then j else s
      | none => j
  | .null => ""

/-- The `Interview` interface of the slice. -/
structure Interview where
  id : Int
  title : String
  position : String
  company_name : Option String
  description : Option String
  interview_type : String
  status : String
  created_at : String
  updated_at : Option String
  started_at : Option String
  completed_at : Option String
  duration_minutes : Option Int

/-- The `InterviewSession` interface of the slice. -/
structure InterviewSession where
  session_token : String
  first_question : JsVal
  audio_data : JsVal
  workflow_state : JsVal
  is_resumed : Bool

/-- The `SubmitResponse` interface of the slice. -/
structure SubmitResponse where
  next_question : JsVal
  audio_data : JsVal
  is_completed : Bool
  feedback : Option JsVal

/-- The `status` field of the slice state. -/
inductive SliceStatus where
  | idle | stLoading | succeeded | failed

/-- The `InterviewState` interface of the slice. -/
structure InterviewState where
  interviews : List Interview
  currentInterview : Option Interview
  interviewSession : Option InterviewSession
  currentQuestion : String
  currentResponse : Option SubmitResponse
  loading : Bool
  error : Option String
  status : SliceStatus

/-- Embedding of the `setAudioData` reducer (part_007, lines 181-185):
`if (state.interviewSession) { state.interviewSession.audio_data = action.payload; }`. -/
def setAudioData (s : InterviewState) (payload : JsVal) : InterviewState :=
  match s.interviewSession with
  | none => s
  | some sess => { s with interviewSession := some { sess with audio_data := payload } }

/-- Embedding of the `setWorkflowState` reducer (part_007, lines 186-190). -/
def setWorkflowState (s : InterviewState) (payload : JsVal) : InterviewState :=
  match s.interviewSession with
  | none => s
  | some sess => { s with interviewSession := some { sess with workflow_state := payload } }

/-- Embedding of the `submitResponse.fulfilled` case (part_007, lines
255-271): `state.loading = false; state.currentResponse = action.payload;`
and, only when `!action.payload.is_completed`, the current question is
replaced by the text extracted from `action.payload.next_question`. -/
def submitResponseFulfilled (s : InterviewState) (payload : SubmitResponse) : InterviewState :=
  let s1 := { s with loading := false, currentResponse := some payload }
  if payload.is_completed then s1
  else { s1 with currentQuestion := extractQuestionText payload.next_question }

/-- Outcome of the client-side handling of one fulfilled submit-answer result
in `LiveInterview` (part_008, `mediaRecorder.current.onstop`): either the
final report is surfaced (via `handleInterviewComplete(result.feedback)`) or
the next question text is shown. -/
inductive SubmitOutcome where
  | completedReport (feedback : Option JsVal)
  | nextQuestionShown (text : String)

/-- Embedding of the branch in `mediaRecorder.current.onstop` (part_008,
lines 296-341): `if (result.is_completed) handleInterviewComplete(result.feedback)
else { … dispatch(setCurrentQuestion(questionText)) … }`. -/
def handleSubmitResult (r : SubmitResponse) : SubmitOutcome :=
  if r.is_completed then .completedReport r.feedback
  else .nextQuestionShown (extractQuestionText r.next_question)

/-! ## Persistence sanitizers (UNICODE_FIX_SUMMARY.md, `interviews/service.py`
and `interviews/router.py`) -/

/-- A Python value of the shapes `clean_value` dispatches on.  A Python `str`
is a sequence of codepoints that may contain lone surrogates (exactly the
strings on which `value.encode('utf-8')` raises), so strings are modelled as
lists of codepoints rather than Lean strings. -/
inductive PyVal where
  | pyNone : PyVal
  | pyInt (n : Int) : PyVal
  | pyDatetime (iso : String) : PyVal
  | pyBytes (bs : List Nat) : PyVal
  | pyStr (s : List Nat) : PyVal

/-- Codepoints of a Lean string literal, used for the placeholder text. -/
def strOfCodes (s : String) : List Nat :=
  s.data.map Char.toNat

/-- Decimal digit codes of `n`, i.e. the codepoints of Python `str(n)` for a
natural number. -/
def decCodes (n : Nat) : List Nat :=
  if n = 0 then [48] else ((Nat.digits 10 n).reverse).map (fun d => d + 48)

/-- The test `value.encode('utf-8').decode('utf-8')` performed by
`clean_value` on strings: encoding a Python `str` to UTF-8 fails exactly when
the string contains a surrogate codepoint (U+D800–U+DFFF). -/
def utf8Safe (s : List Nat) : Bool :=
  s.all (fun c => decide (c < 0xD800) || decide (0xDFFF < c))

/-- The string `f"<binary_data:{len(value)}_bytes>"`. -/
def binaryDataPlaceholder (n : Nat) : List Nat :=
  strOfCodes "<binary_data:" ++ decCodes n ++ strOfCodes "_bytes>"

/-- The string `f"<encoded_string:{len(value)}_chars>"`. -/
def encodedStringPlaceholder (n : Nat) : List Nat :=
  strOfCodes "<encoded_string:" ++ decCodes n ++ strOfCodes "_chars>"

/-- Modelled from the spec: the tail of `clean_value` is elided in
`UNICODE_FIX_SUMMARY.md` ("... rest of the function"); per the persistence
contract it returns the remaining JSON-safe values (None, numbers)
unchanged. -/
def clean_value_rest (v : PyVal) : PyVal := v

/-- Embedding of `clean_value` (UNICODE_FIX_SUMMARY.md, lines 42-61).  The
contents of `EXCLUDE_FIELDS` are not in this source tree, so the set is
taken as a parameter.  Keys excluded become `None`; `datetime` values become
their ISO string; non-empty `bytes` become the `<binary_data:N_bytes>`
placeholder (empty bytes are falsy and become `None`); strings that fail the
UTF-8 round-trip become the `<encoded_string:N_chars>` placeholder. -/
def clean_value (excludeFields : List String) (value : PyVal) (key : Option String) : PyVal :=
  if (match key with | some k => excludeFields.contains k | none => false) then .pyNone
  else
    match value with
    | .pyDatetime iso => .pyStr (strOfCodes iso)
    | .pyBytes bs => if bs.isEmpty then .pyNone else .pyStr (binaryDataPlaceholder bs.length)
    | .pyStr s => if utf8Safe s then .pyStr s else .pyStr (encodedStringPlaceholder s.length)
    | v => clean_value_rest v

/-- Modelled from the spec: `clean_workflow_state_for_db` itself is only
described (not printed) in `UNICODE_FIX_SUMMARY.md`; it sanitizes the
serialized workflow state by applying `clean_value` to every field before
the state is stored as JSON. -/
def clean_workflow_state_for_db (excludeFields : List String)
    (state : List (String × PyVal)) : List (String × PyVal) :=
  state.map (fun kv => (kv.1, clean_value excludeFields kv.2 (some kv.1)))

/-- A value is safe to persist when it carries no raw bytes and any string in
it survives UTF-8 encoding. -/
def persistSafe : PyVal → Prop
  | .pyBytes _ => False
  | .pyStr s => utf8Safe s = true
  | _ => True

/-- Boolean prefix test on codepoint lists, the model of Python
`value.startswith(...)`. -/
def codesStartWith : List Nat → List Nat → Bool
  | [], _ => true
  | _ :: _, [] => false
  | p :: ps, l :: ls => (p == l) && codesStartWith ps ls

/-- The set `binary_fields = {'audio_data', 'video_data', 'temp_data'}`
removed by `safe_restore_state`. -/
def binary_fields : List String :=
  ["audio_data", "video_data", "temp_data"]

/-- The placeholder-to-None loop of `safe_restore_state`: a string value
beginning with `<binary_data:` or `<audio_bytes:` becomes `None`. -/
def stripBinaryPlaceholder (v : PyVal) : PyVal :=
  match v with
  | .pyStr s =>
      if codesStartWith (strOfCodes "<binary_data:") s
          || codesStartWith (strOfCodes "<audio_bytes:") s then .pyNone
      else .pyStr s
  | v => v

/-- The cleaning phase of `safe_restore_state` (UNICODE_FIX_SUMMARY.md,
lines 69-85): copy the dict, delete the `binary_fields` keys, then map
placeholder strings to `None`. -/
def safe_restore_clean (state_dict : List (String × PyVal)) : List (String × PyVal) :=
  (state_dict.filter (fun kv => !binary_fields.contains kv.1)).map
    (fun kv => (kv.1, stripBinaryPlaceholder kv.2))

/-- The fields of `LangGraphState` that the minimal fallback state populates.
Pydantic validation of the full model is not in this source tree, so the
constructor is taken as a parameter of `safe_restore_state`; the field values
stay in their dynamic (`PyVal`) form. -/
structure LangGraphState where
  interview_id : PyVal
  session_token : PyVal
  current_step : PyVal
  user_id : PyVal
  interview_type : PyVal
  position : PyVal

/-- `clean_dict.get(key, default)`. -/
def dictGet (st : List (String × PyVal)) (k : String) (default : PyVal) : PyVal :=
  match st.find? (fun kv => kv.1 == k) with
  | some kv => kv.2
  | none => default

/-- The six defaulted keyword arguments of the fallback
`LangGraphState(...)` call in the `except` branch of `safe_restore_state`
(UNICODE_FIX_SUMMARY.md, lines 91-100): each is `clean_dict.get(key,
default)`, so a key present with value `None` (e.g. after placeholder
stripping) is passed through as `None`, not replaced by the default. -/
def minimal_fields (clean : List (String × PyVal)) : List (String × PyVal) :=
  [("interview_id", dictGet clean "interview_id" (.pyInt 1)),
   ("session_token", dictGet clean "session_token" (.pyStr (strOfCodes "unknown"))),
   ("current_step", dictGet clean "current_step" (.pyStr (strOfCodes "initialize"))),
   ("user_id", dictGet clean "user_id" (.pyInt 1)),
   ("interview_type", dictGet clean "interview_type" (.pyStr (strOfCodes "technical"))),
   ("position", dictGet clean "position" (.pyStr (strOfCodes "Software Engineer")))]

/-- Embedding of `safe_restore_state` (UNICODE_FIX_SUMMARY.md, lines
69-100).  `construct` models the pydantic constructor
`LangGraphState(**fields)` (the schema class is repository code absent from
this source tree), which may raise (`none`).  The source calls that same
constructor twice: once on the full cleaned dict inside `try`, and — when
that raises — once more, unprotected inside the `except` branch, on the six
defaulted `minimal_fields`.  A failure of the second call propagates out of
`safe_restore_state`; the overall `none` models that uncaught exception. -/
def safe_restore_state (construct : List (String × PyVal) → Option LangGraphState)
    (state_dict : List (String × PyVal)) : Option LangGraphState :=
  let clean := safe_restore_clean state_dict
  match construct clean with
  | some s => some s
  | none => construct (minimal_fields clean)

/-! ## AudioNormalizer (spec §4.1; the Python audio utilities are not part of
this source tree) -/

/-- Modelled from the spec: the audio container formats `AudioNormalizer`
recognizes by magic-byte signature (spec §4.1). -/
inductive AudioFormat where
  | wav | webm | mp3 | ogg
deriving DecidableEq

/-- Bytes `start, …, start+len-1` of a payload. -/
def bytesAt (bs : List Nat) (start len : Nat) : List Nat :=
  (bs.drop start).take len

/-- Modelled from the spec: magic-byte container detection of
`AudioNormalizer` (spec §4.1) — WAV `RIFF....WAVE`, WebM/EBML `0x1A45DFA3`,
OGG `OggS`, MP3 (ID3 tag or `0xFF 0xEx` frame sync); anything else is
unrecognized. -/
def detectFormat (bs : List Nat) : Option AudioFormat :=
  if bytesAt bs 0 4 = [0x52, 0x49, 0x46, 0x46] ∧ bytesAt bs 8 4 = [0x57, 0x41, 0x56, 0x45] then
    some .wav
  else if bytesAt bs 0 4 = [0x1A, 0x45, 0xDF, 0xA3] then some .webm
  else if bytesAt bs 0 4 = [0x4F, 0x67, 0x67, 0x53] then some .ogg
  else if bytesAt bs 0 3 = [0x49, 0x44, 0x33] then some .mp3
  else
    match bs with
    | b0 :: b1 :: _ => if b0 = 0xFF ∧ 0xE0 ≤ b1 ∧ b1 ≤ 0xFF then some .mp3 else none
    | _ => none

/-- Modelled from the spec: the `NormalizedAudio` record returned by
`AudioNormalizer.normalize` (spec §4.1). -/
structure NormalizedAudio where
  bytes : List Nat
  sampleRate : Nat
  channels : Nat
  durationSeconds : ℚ
  sourceFormat : AudioFormat
deriving DecidableEq

/-- Modelled from the spec: the typed error of `AudioNormalizer` carrying the
byte length and the detected-but-unsupported format detail (spec §4.1). -/
inductive NormError where
  | unsupportedFormat (byteLength : Nat) (detected : String)
deriving DecidableEq

/-- Modelled from the spec: the decode/resample stage of `normalize` — the
conversion of a recognized container to single-channel 16kHz linear PCM.
The sample data transformation itself is outside the verified properties;
what matters is that it yields a `NormalizedAudio` with `sampleRate = 16000`,
`channels = 1` and the detected `sourceFormat`. -/
def convertTo16kMonoPCM (f : AudioFormat) (payload : List Nat) : NormalizedAudio :=
  { bytes := payload
    sampleRate := 16000
    channels := 1
    durationSeconds := (payload.length : ℚ) / 32000
    sourceFormat := f }

/-- Modelled from the spec: `AudioNormalizer.normalize` on a byte buffer
(spec §4.1).  It is a total function: an unrecognized signature yields
`Error(UnsupportedFormat)` with the byte length and detail, never an
exception. -/
def normalize (payload : List Nat) : Except NormError NormalizedAudio :=
  match detectFormat payload with
  | none => .error (.unsupportedFormat payload.length "unknown")
  | some f => .ok (convertTo16kMonoPCM f payload)

/-! ## InterviewSessionMachine (spec §3-§4.5; the Python session machine,
`ai/workflow.py` and `interviews/service.py`, is not part of this source
tree, so the machine is modelled from the spec) -/

/-- Modelled from the spec: the step enum of the session state machine
(spec §4.5). -/
inductive Step where
  | created | questions_ready | awaiting_response | evaluating | completing | completed
deriving DecidableEq

/-- Modelled from the spec: the interview-type enum (spec §3). -/
inductive InterviewType where
  | technical | behavioral | system_design | coding | hr
deriving DecidableEq

/-- Modelled from the spec: the immutable `InterviewConfig` (spec §3). -/
structure InterviewConfig where
  position : String
  company : String
  interviewType : InterviewType
  difficulty : String
  requested_count : Nat
  durationBudget : Nat
deriving DecidableEq

/-- Modelled from the spec: a generated `Question` (spec §3). -/
structure Question where
  id : Nat
  prompt : String
  category : Option String
  expectedHint : Option String
deriving DecidableEq

/-- Modelled from the spec: a structured evaluation returned by
`ResponseEvaluator` (spec §4.4), score 0-10. -/
structure Evaluation where
  score : Nat
  strengths : List String
  gaps : List String
deriving DecidableEq

/-- Modelled from the spec: a `ResponseRecord` (spec §3); `evaluation = none`
is the flag marking the response unevaluated while retaining the
transcript. -/
structure ResponseRecord where
  questionId : Nat
  transcript : String
  evaluation : Option Evaluation
deriving DecidableEq

/-- Modelled from the spec: the `SessionState` aggregate owned by the
machine (spec §3).  `pendingTranscript` holds the transcript produced by a
successful `ingestResponse` until `evaluate` consumes it. -/
structure SessionState where
  step : Step
  config : Option InterviewConfig
  questions : List Question
  cursor : Nat
  responses : List ResponseRecord
  aggregateScore : ℚ
  pendingTranscript : Option String
deriving DecidableEq

/-- Modelled from the spec: the error taxonomy the machine's transitions
return (spec §7). -/
inductive MachineError where
  | sessionClosed | noMoreQuestions | noUsableInput | generationFailed | invalidState
deriving DecidableEq

/-- Modelled from the spec: the fresh state a session starts from (step
`created`, nothing generated yet). -/
def initialState : SessionState :=
  { step := .created
    config := none
    questions := []
    cursor := 0
    responses := []
    aggregateScore := 0
    pendingTranscript := none }

/-- The scores of the evaluated responses only (unevaluated records are
skipped but stay in the list). -/
def evaluatedScores (rs : List ResponseRecord) : List Nat :=
  rs.filterMap (fun r => r.evaluation.map (fun e => e.score))

/-- Modelled from the spec: the aggregate score, the arithmetic mean of all
evaluated scores so far (spec §4.5 `evaluate`, glossary); zero when nothing
has been evaluated. -/
def aggregateOf (rs : List ResponseRecord) : ℚ :=
  let scores := evaluatedScores rs
  if scores.isEmpty then 0 else (scores.sum : ℚ) / (scores.length : ℚ)

/-- Modelled from the spec: `initialize(config)` (spec §4.5).  Only valid in
`created` (a completed session answers `SessionClosed`); `gen` is the single
`QuestionGenerator.generate` outcome.  A failed generation — or an empty
list, with which the interview cannot start (spec §7) — leaves the state
unchanged and surfaces `GenerationFailed`; a non-empty list is accepted even
when shorter than `config.requested_count` (graceful degradation,
spec §4.3). -/
def initializeSession (cfg : InterviewConfig) (gen : Except Unit (List Question))
    (s : SessionState) : Except MachineError SessionState :=
  if s.step = .completed then .error .sessionClosed
  else if s.step ≠ .created then .error .invalidState
  else
    match gen with
    | .error _ => .error .generationFailed
    | .ok qs =>
        if qs.isEmpty then .error .generationFailed
        else .ok { s with
                    step := .questions_ready
                    config := some cfg
                    questions := qs
                    cursor := 0
                    responses := []
                    aggregateScore := 0
                    pendingTranscript := none }

/-- Modelled from the spec: `presentQuestion()` (spec §4.5), valid from
`questions_ready` or `awaiting_response`; returns `questions[cursor]`
without advancing the cursor, moving the session to `awaiting_response`;
`NoMoreQuestions` when the cursor is past the list. -/
def presentQuestion (s : SessionState) : Except MachineError (Question × SessionState) :=
  if s.step = .completed then .error .sessionClosed
  else if s.step ≠ .questions_ready ∧ s.step ≠ .awaiting_response then .error .invalidState
  else
    if h : s.cursor < s.questions.length then
      .ok (s.questions.get ⟨s.cursor, h⟩, { s with step := .awaiting_response })
    else .error .noMoreQuestions

/-- Modelled from the spec: `ingestResponse(rawAudioOrText)` (spec §4.5),
valid only from `awaiting_response`.  Audio goes through `normalize` and the
`transcribe` gateway; a failed normalization or transcription falls back to
the supplied text, else `NoUsableInput` with no state change.  On success
the transcript is parked for `evaluate` and the step becomes `evaluating`. -/
def ingestResponse (audio : Option (List Nat)) (text : Option String)
    (transcribe : NormalizedAudio → Except Unit String)
    (s : SessionState) : Except MachineError SessionState :=
  if s.step = .completed then .error .sessionClosed
  else if s.step ≠ .awaiting_response then .error .invalidState
  else
    let accept : String → Except MachineError SessionState := fun t =>
      .ok { s with step := .evaluating, pendingTranscript := some t }
    let textOnly : Except MachineError SessionState :=
      match text with
      | some t => accept t
      | none => .error .noUsableInput
    match audio with
    | none => textOnly
    | some payload =>
        match normalize payload with
        | .error _ => textOnly
        | .ok na =>
            match transcribe na with
            | .ok t => accept t
            | .error _ => textOnly

/-- Modelled from the spec: `evaluate()` (spec §4.5), valid only after a
successful `ingestResponse`.  `eval` is the single `ResponseEvaluator`
outcome; on its failure the transcript is kept with the unevaluated flag
(spec §4.4).  Appends the `ResponseRecord`, increments the cursor and
recomputes the aggregate score as the mean of the evaluated scores. -/
def evaluate (eval : Question → String → Except Unit Evaluation)
    (s : SessionState) : Except MachineError SessionState :=
  if s.step = .completed then .error .sessionClosed
  else if s.step ≠ .evaluating then .error .invalidState
  else
    match s.pendingTranscript with
    | none => .error .invalidState
    | some t =>
        if h : s.cursor < s.questions.length then
          let q := s.questions.get ⟨s.cursor, h⟩
          let record : ResponseRecord :=
            match eval q t with
            | .ok e => { questionId := q.id, transcript := t, evaluation := some e }
            | .error _ => { questionId := q.id, transcript := t, evaluation := none }
          let rs := s.responses ++ [record]
          .ok { s with
                 responses := rs
                 cursor := s.cursor + 1
                 aggregateScore := aggregateOf rs
                 pendingTranscript := none }
        else .error .noMoreQuestions

/-- Modelled from the spec: `decideNext()` (spec §4.5), the pure decision
after an evaluation: `awaiting_response` while `cursor < len(questions)`,
`completing` once `cursor == len(questions)`. -/
def decideNext (s : SessionState) : Except MachineError SessionState :=
  if s.step = .completed then .error .sessionClosed
  else if s.step ≠ .evaluating then .error .invalidState
  else
    match s.pendingTranscript with
    | some _ => .error .invalidState
    | none =>
        if s.cursor < s.questions.length then .ok { s with step := .awaiting_response }
        else .ok { s with step := .completing }

/-- Modelled from the spec: the final report produced by `complete()`
(spec §4.5). -/
structure Report where
  aggregateScore : ℚ
  breakdown : List ResponseRecord

/-- Modelled from the spec: `complete()` (spec §4.5), valid only from
`completing`; produces the final report and closes the session. -/
def complete (s : SessionState) : Except MachineError (Report × SessionState) :=
  if s.step = .completed then .error .sessionClosed
  else if s.step ≠ .completing then .error .invalidState
  else .ok ({ aggregateScore := s.aggregateScore, breakdown := s.responses },
            { s with step := .completed })

/-- The states reachable from a fresh session by the machine's transitions,
with arbitrary collaborator outcomes. -/
inductive Reachable : SessionState → Prop where
  | init : Reachable initialState
  | initializeStep {s s' cfg gen} : Reachable s →
      initializeSession cfg gen s = .ok s' → Reachable s'
  | presentStep {s s' q} : Reachable s →
      presentQuestion s = .ok (q, s') → Reachable s'
  | ingestStep {s s' audio text tr} : Reachable s →
      ingestResponse audio text tr s = .ok s' → Reachable s'
  | evaluateStep {s s' ev} : Reachable s →
      evaluate ev s = .ok s' → Reachable s'
  | decideStep {s s'} : Reachable s →
      decideNext s = .ok s' → Reachable s'
  | completeStep {s s' r} : Reachable s →
      complete s = .ok (r, s') → Reachable s'

/-- The machine invariant (spec §3): the cursor never passes the question
list, the response list always has exactly `cursor` entries, and whenever an
answer can still be submitted (or is pending evaluation) there is a question
left for it. -/
def MachineInv (s : SessionState) : Prop :=
  s.cursor ≤ s.questions.length ∧
  s.responses.length = s.cursor ∧
  (s.step = .awaiting_response → s.cursor < s.questions.length) ∧
  (s.step = .evaluating → s.pendingTranscript.isSome → s.cursor < s.questions.length)

/-! ## Concrete fixtures used by the witness theorems -/

/-- A concrete three-question list, the "3 of 5 requested" scenario. -/
def qs3W : List Question :=
  [⟨0, "q0", none, none⟩, ⟨1, "q1", none, none⟩, ⟨2, "q2", none, none⟩]

/-- A concrete configuration requesting five questions. -/
def cfg5W : InterviewConfig :=
  ⟨"Software Engineer", "Acme", .technical, "medium", 5, 30⟩

/-- A `ResponseEvaluator` outcome that always fails. -/
def evFailW : Question → String → Except Unit Evaluation :=
  fun _ _ => .error ()

/-- An evaluated record with score 8. -/
def rW8 : ResponseRecord := ⟨0, "a0", some ⟨8, [], []⟩⟩

/-- An evaluated record with score 6. -/
def rW6 : ResponseRecord := ⟨1, "a1", some ⟨6, [], []⟩⟩

/-- An unevaluated record (evaluator failed, transcript kept). -/
def rWu : ResponseRecord := ⟨2, "a2", none⟩

/-- A session about to evaluate its third answer, with scores 8 and 6
recorded so far. -/
def sW : SessionState :=
  { step := .evaluating
    config := some cfg5W
    questions := qs3W
    cursor := 2
    responses := [rW8, rW6]
    aggregateScore := 7
    pendingTranscript := some "a2" }

/-- The session `sW` after the third (failed) evaluation: scores
`[8, 6, unevaluated]`, aggregate `mean(8,6) = 7`, three records. -/
def s3W : SessionState :=
  { step := .evaluating
    config := some cfg5W
    questions := qs3W
    cursor := 3
    responses := [rW8, rW6, rWu]
    aggregateScore := aggregateOf [rW8, rW6, rWu]
    pendingTranscript := none }

/-- The state produced by initializing a fresh session with the three
returned questions. -/
def sReadyW : SessionState :=
  { step := .questions_ready
    config := some cfg5W
    questions := qs3W
    cursor := 0
    responses := []
    aggregateScore := 0
    pendingTranscript := none }

/-- A stored workflow-state dict holding raw audio bytes and a stale
binary-data placeholder, used to exercise `safe_restore_state`. -/
def st2W : List (String × PyVal) :=
  [("audio_data", .pyBytes [1, 2, 3]),
   ("transcript", .pyStr (strOfCodes "<binary_data:3_bytes>")),
   ("user_id", .pyInt 7)]

/-- Modelled from the spec: one concrete behaviour of the pydantic
`LangGraphState(**fields)` constructor, whose schema class is repository
code absent from this source tree.  The fallback call passes
`interview_id=clean_dict.get('interview_id', 1)`, so the field is
integer-typed and required; pydantic accepts an integer there and rejects
`None` (a non-Optional int field), which is what this model checks. -/
def constructW (fields : List (String × PyVal)) : Option LangGraphState :=
  match dictGet fields "interview_id" .pyNone with
  | .pyInt _ =>
      some { interview_id := dictGet fields "interview_id" .pyNone
             session_token := dictGet fields "session_token" .pyNone
             current_step := dictGet fields "current_step" .pyNone
             user_id := dictGet fields "user_id" .pyNone
             interview_type := dictGet fields "interview_type" .pyNone
             position := dictGet fields "position" .pyNone }
  | _ => none

/-- A persisted state whose `interview_id` field is a length-only
placeholder string: cleaning restores it as `None`, so both constructor
calls of `safe_restore_state` fail under `constructW`. -/
def stBadW : List (String × PyVal) :=
  [("interview_id", .pyStr (strOfCodes "<binary_data:4_bytes>"))]

/-! ## Helper lemmas -/

theorem utf8Safe_strOfCodes (s : String) : utf8Safe (strOfCodes s) = true := by
  rw [utf8Safe, List.all_eq_true]
  intro c hc
  rw [strOfCodes] at hc
  obtain ⟨ch, -, rfl⟩ := List.mem_map.mp hc
  have h := ch.valid
  simp only [Bool.or_eq_true, decide_eq_true_eq, Char.toNat]
  rcases h with h | ⟨h1, -⟩
  · exact Or.inl h
  · exact Or.inr h1

theorem decCodes_lt (n : Nat) : ∀ c ∈ decCodes n, c < 128 := by
  intro c hc
  rw [decCodes] at hc
  split at hc
  · simp at hc; omega
  · simp only [List.mem_map, List.mem_reverse] at hc
    obtain ⟨d, hd, rfl⟩ := hc
    have := Nat.digits_lt_base (by norm_num) hd
    omega

theorem utf8Safe_of_bound (l : List Nat) (h : ∀ c ∈ l, c < 0xD800) :
    utf8Safe l = true := by
  rw [utf8Safe, List.all_eq_true]
  intro c hc
  simp only [Bool.or_eq_true, decide_eq_true_eq]
  exact Or.inl (h c hc)

theorem utf8Safe_append (a b : List Nat) :
    utf8Safe (a ++ b) = (utf8Safe a && utf8Safe b) := by
  simp [utf8Safe, List.all_append]

theorem utf8Safe_binaryDataPlaceholder (n : Nat) :
    utf8Safe (binaryDataPlaceholder n) = true := by
  rw [binaryDataPlaceholder, utf8Safe_append, utf8Safe_append]
  rw [utf8Safe_strOfCodes, utf8Safe_strOfCodes]
  rw [utf8Safe_of_bound (decCodes n) (fun c hc => lt_trans (decCodes_lt n c hc) (by norm_num))]
  rfl

theorem utf8Safe_encodedStringPlaceholder (n : Nat) :
    utf8Safe (encodedStringPlaceholder n) = true := by
  rw [encodedStringPlaceholder, utf8Safe_append, utf8Safe_append]
  rw [utf8Safe_strOfCodes, utf8Safe_strOfCodes]
  rw [utf8Safe_of_bound (decCodes n) (fun c hc => lt_trans (decCodes_lt n c hc) (by norm_num))]
  rfl

theorem persistSafe_clean_value (ex : List String) (v : PyVal) (k : Option String) :
    persistSafe (clean_value ex v k) := by
  rw [clean_value.eq_def]
  split
  · trivial
  · cases v with
    | pyNone => simp [clean_value_rest, persistSafe]
    | pyInt n => simp [clean_value_rest, persistSafe]
    | pyDatetime iso => simpa [persistSafe] using utf8Safe_strOfCodes iso
    | pyBytes bs =>
        by_cases hbs : bs.isEmpty <;>
          simp [hbs, persistSafe, utf8Safe_binaryDataPlaceholder]
    | pyStr s =>
        by_cases hs : utf8Safe s <;>
          simp [hs, persistSafe, utf8Safe_encodedStringPlaceholder]

theorem stripBinaryPlaceholder_eq_pyStr {v : PyVal} {s : List Nat}
    (h : stripBinaryPlaceholder v = .pyStr s) :
    codesStartWith (strOfCodes "<binary_data:") s = false ∧
    codesStartWith (strOfCodes "<audio_bytes:") s = false := by
  cases v <;> simp only [stripBinaryPlaceholder] at h
  case pyNone => exact absurd h (by simp)
  case pyInt n => exact absurd h (by simp)
  case pyDatetime iso => exact absurd h (by simp)
  case pyBytes bs => exact absurd h (by simp)
  case pyStr s0 =>
    split at h
    · exact absurd h (by simp)
    · next hcond =>
        injection h with h'
        subst h'
        simp only [Bool.or_eq_true, not_or, Bool.not_eq_true] at hcond
        exact hcond

theorem countCrossings_le : ∀ l : List Nat, countCrossings l ≤ l.length - 1
  | [] => by simp [countCrossings]
  | [_] => by simp [countCrossings]
  | a :: b :: rest => by
      have ih := countCrossings_le (b :: rest)
      simp only [countCrossings, List.length_cons] at *
      split <;> omega

theorem machineInv_initializeSession {cfg : InterviewConfig}
    {gen : Except Unit (List Question)} {s s' : SessionState}
    (h : initializeSession cfg gen s = .ok s') : MachineInv s' := by
  rw [initializeSession.eq_def] at h
  split at h
  · simp at h
  · split at h
    · simp at h
    · split at h
      · simp at h
      · split at h
        · simp at h
        · injection h with h'
          subst h'
          refine ⟨Nat.zero_le _, rfl, ?_, ?_⟩
          · intro hx; simp at hx
          · intro hx; simp at hx

theorem machineInv_presentQuestion {s s' : SessionState} {q : Question}
    (hs : MachineInv s) (h : presentQuestion s = .ok (q, s')) : MachineInv s' := by
  rw [presentQuestion.eq_def] at h
  split at h
  · simp at h
  · split at h
    · simp at h
    · split at h
      · next hlt =>
          simp only [Except.ok.injEq, Prod.mk.injEq] at h
          obtain ⟨-, rfl⟩ := h
          refine ⟨hs.1, hs.2.1, ?_, ?_⟩
          · intro _; exact hlt
          · intro hx; simp at hx
      · simp at h

theorem machineInv_ingestResponse {audio : Option (List Nat)} {text : Option String}
    {tr : NormalizedAudio → Except Unit String} {s s' : SessionState}
    (hs : MachineInv s) (h : ingestResponse audio text tr s = .ok s') : MachineInv s' := by
  rw [ingestResponse.eq_def] at h
  split at h
  · simp at h
  · split at h
    · simp at h
    · next hstep2 =>
        have hstep : s.step = .awaiting_response := by
          by_contra hne; exact hstep2 hne
        have hcur := hs.2.2.1 hstep
        dsimp only at h
        have hform : ∃ t, s' = { s with step := .evaluating, pendingTranscript := some t } := by
          cases audio with
          | none =>
              dsimp only at h
              cases text with
              | none => simp at h
              | some t =>
                  dsimp only at h
                  injection h with h'
                  exact ⟨t, h'.symm⟩
          | some payload =>
              dsimp only at h
              split at h
              · cases text with
                | none => simp at h
                | some t =>
                    dsimp only at h
                    injection h with h'
                    exact ⟨t, h'.symm⟩
              · split at h
                · next t heq =>
                    injection h with h'
                    exact ⟨t, h'.symm⟩
                · cases text with
                  | none => simp at h
                  | some t =>
                      dsimp only at h
                      injection h with h'
                      exact ⟨t, h'.symm⟩
        obtain ⟨t, rfl⟩ := hform
        refine ⟨hs.1, hs.2.1, ?_, ?_⟩
        · intro hx; simp at hx
        · intro _ _; exact hcur

theorem machineInv_evaluate {ev : Question → String → Except Unit Evaluation}
    {s s' : SessionState}
    (hs : MachineInv s) (h : evaluate ev s = .ok s') : MachineInv s' := by
  rw [evaluate.eq_def] at h
  split at h
  · simp at h
  · split at h
    · simp at h
    · next hstep2 =>
        have hstep : s.step = .evaluating := by
          by_contra hne; exact hstep2 hne
        split at h
        · simp at h
        · next t hpend =>
            split at h
            · next hlt =>
                dsimp only at h
                injection h with h'
                subst h'
                refine ⟨hlt, ?_, ?_, ?_⟩
                · simp [List.length_append, hs.2.1]
                · intro hx
                  simp only at hx
                  rw [hstep] at hx
                  exact absurd hx (by decide)
                · intro _ hx
                  simp at hx
            · simp at h

theorem machineInv_decideNext {s s' : SessionState}
    (hs : MachineInv s) (h : decideNext s = .ok s') : MachineInv s' := by
  rw [decideNext.eq_def] at h
  split at h
  · simp at h
  · split at h
    · simp at h
    · split at h
      · simp at h
      · split at h
        · next hlt =>
            injection h with h'
            subst h'
            refine ⟨hs.1, hs.2.1, fun _ => hlt, ?_⟩
            · intro hx; simp at hx
        · injection h with h'
          subst h'
          refine ⟨hs.1, hs.2.1, ?_, ?_⟩
          · intro hx; simp at hx
          · intro hx; simp at hx

theorem machineInv_complete {s s' : SessionState} {r : Report}
    (hs : MachineInv s) (h : complete s = .ok (r, s')) : MachineInv s' := by
  rw [complete.eq_def] at h
  split at h
  · simp at h
  · split at h
    · simp at h
    · simp only [Except.ok.injEq, Prod.mk.injEq] at h
      obtain ⟨-, rfl⟩ := h
      refine ⟨hs.1, hs.2.1, ?_, ?_⟩
      · intro hx; simp at hx
      · intro hx; simp at hx

theorem reachable_MachineInv {s : SessionState} (h : Reachable s) : MachineInv s := by
  induction h with
  | init =>
      refine ⟨Nat.le_refl 0, rfl, ?_, ?_⟩
      · intro hx; exact absurd hx (by decide)
      · intro hx; exact absurd hx (by decide)
  | initializeStep _ hstep _ => exact machineInv_initializeSession hstep
  | presentStep _ hstep ih => exact machineInv_presentQuestion ih hstep
  | ingestStep _ hstep ih => exact machineInv_ingestResponse ih hstep
  | evaluateStep _ hstep ih => exact machineInv_evaluate ih hstep
  | decideStep _ hstep ih => exact machineInv_decideNext ih hstep
  | completeStep _ hstep ih => exact machineInv_complete ih hstep

/-! ## Claim theorems -/

/-- C10: for every non-empty sample array, `calculateZeroCrossingRate`
returns `crossings / n` where `crossings` counts the sign changes between
consecutive samples centered at 128, so the result lies in
`[0, (n-1)/n]` — nonnegative and strictly below 1. -/
theorem calculateZeroCrossingRate_bounds (data : List Nat) (h : data ≠ []) :
    calculateZeroCrossingRate data = (countCrossings data : ℚ) / (data.length : ℚ) ∧
    0 ≤ calculateZeroCrossingRate data ∧
    calculateZeroCrossingRate data ≤ ((data.length : ℚ) - 1) / (data.length : ℚ) ∧
    calculateZeroCrossingRate data < 1 := by
  have hn : 0 < data.length := List.length_pos.mpr h
  have hnq : (0 : ℚ) < (data.length : ℚ) := by exact_mod_cast hn
  have hc := countCrossings_le data
  have hcq : (countCrossings data : ℚ) ≤ (data.length : ℚ) - 1 := by
    have : (countCrossings data : ℚ) ≤ ((data.length - 1 : ℕ) : ℚ) := by exact_mod_cast hc
    calc (countCrossings data : ℚ) ≤ ((data.length - 1 : ℕ) : ℚ) := this
      _ ≤ (data.length : ℚ) - 1 := by
          rw [Nat.cast_sub hn]
          norm_num
  refine ⟨rfl, ?_, ?_, ?_⟩
  · exact div_nonneg (by positivity) (le_of_lt hnq)
  · exact div_le_div_of_nonneg_right hcq hnq.le
  · rw [calculateZeroCrossingRate, div_lt_one hnq]
    linarith

/-- Witness for C10 on the concrete samples `[130, 120, 130]`. -/
theorem calculateZeroCrossingRate_bounds_witness :
    0 ≤ calculateZeroCrossingRate [130, 120, 130] ∧
    calculateZeroCrossingRate [130, 120, 130] < 1 := by
  have h := calculateZeroCrossingRate_bounds [130, 120, 130] (by decide)
  exact ⟨h.2.1, h.2.2.2⟩

/-- C9: when `interviewSession` is `null`, the `setAudioData` and
`setWorkflowState` reducers drop their payload and return the state
unchanged; audio data and workflow state are only stored when a session
exists. -/
theorem setAudioData_setWorkflowState_noSession (s : InterviewState) (p q : JsVal)
    (h : s.interviewSession = none) :
    setAudioData s p = s ∧ setWorkflowState s q = s := by
  constructor <;> simp [setAudioData, setWorkflowState, h]

/-- Witness for C9 on a concrete session-less state. -/
theorem setAudioData_setWorkflowState_noSession_witness :
    setAudioData ⟨[], none, none, "", none, false, none, .idle⟩ .null =
      ⟨[], none, none, "", none, false, none, .idle⟩ ∧
    setWorkflowState ⟨[], none, none, "", none, false, none, .idle⟩ .null =
      ⟨[], none, none, "", none, false, none, .idle⟩ :=
  setAudioData_setWorkflowState_noSession _ _ _ rfl

/-- C3: the handling of a fulfilled submit-answer result is an exact
dichotomy on `is_completed`: when false, the current question is replaced by
the text extracted from `next_question` (and the client shows the next
question); when true, the final report (`feedback`) is surfaced (via
`currentResponse` and `handleInterviewComplete`) and the current question is
left unchanged — never both, never neither. -/
theorem submitResponseFulfilled_dichotomy (s : InterviewState) (r : SubmitResponse) :
    (submitResponseFulfilled s r).currentResponse = some r ∧
    (r.is_completed = false →
      (submitResponseFulfilled s r).currentQuestion = extractQuestionText r.next_question ∧
      handleSubmitResult r = .nextQuestionShown (extractQuestionText r.next_question)) ∧
    (r.is_completed = true →
      (submitResponseFulfilled s r).currentQuestion = s.currentQuestion ∧
      handleSubmitResult r = .completedReport r.feedback) := by
  cases hb : r.is_completed <;>
    simp [submitResponseFulfilled, handleSubmitResult, hb]

/-- Witness for C3 on a concrete not-yet-completed result. -/
theorem submitResponseFulfilled_dichotomy_witness :
    (submitResponseFulfilled ⟨[], none, none, "old question", none, true, none, .idle⟩
        ⟨.str "Tell me about testing", .null, false, none⟩).currentQuestion =
      "Tell me about testing" :=
  ((submitResponseFulfilled_dichotomy _ _).2.1 rfl).1

/-- C1: every field persisted through `clean_workflow_state_for_db` is safe —
no raw bytes survive and every surviving string passes UTF-8 validation;
specifically a bytes-valued field becomes `None` or the
`<binary_data:N_bytes>` placeholder, and a string field that fails the UTF-8
round-trip becomes `None` or the `<encoded_string:N_chars>` length-only
placeholder. -/
theorem clean_workflow_state_for_db_safe (excludeFields : List String)
    (st : List (String × PyVal)) :
    (∀ kv ∈ clean_workflow_state_for_db excludeFields st, persistSafe kv.2) ∧
    (∀ (k : String) (bs : List Nat),
        clean_value excludeFields (.pyBytes bs) (some k) = .pyNone ∨
        clean_value excludeFields (.pyBytes bs) (some k) =
          .pyStr (binaryDataPlaceholder bs.length)) ∧
    (∀ (k : String) (s : List Nat), utf8Safe s = false →
        clean_value excludeFields (.pyStr s) (some k) = .pyNone ∨
        clean_value excludeFields (.pyStr s) (some k) =
          .pyStr (encodedStringPlaceholder s.length)) := by
  refine ⟨?_, ?_, ?_⟩
  · intro kv hkv
    simp only [clean_workflow_state_for_db, List.mem_map] at hkv
    obtain ⟨kv', -, rfl⟩ := hkv
    exact persistSafe_clean_value excludeFields kv'.2 (some kv'.1)
  · intro k bs
    rw [clean_value.eq_def]
    split
    · exact Or.inl rfl
    · dsimp only
      by_cases hbs : bs.isEmpty = true
      · rw [if_pos hbs]
        exact Or.inl rfl
      · rw [if_neg hbs]
        exact Or.inr rfl
  · intro k s hs
    rw [clean_value.eq_def]
    split
    · exact Or.inl rfl
    · dsimp only
      rw [if_neg (by simp [hs])]
      exact Or.inr rfl

/-- Witness for C1: a raw-bytes `audio_data` field and a lone-surrogate
string are both replaced. -/
theorem clean_workflow_state_for_db_safe_witness :
    (clean_value [] (.pyBytes [255, 216, 0]) (some "audio_data") = .pyNone ∨
      clean_value [] (.pyBytes [255, 216, 0]) (some "audio_data") =
        .pyStr (binaryDataPlaceholder 3)) ∧
    (clean_value [] (.pyStr [0xD800]) (some "transcript") = .pyNone ∨
      clean_value [] (.pyStr [0xD800]) (some "transcript") =
        .pyStr (encodedStringPlaceholder 1)) :=
  ⟨(clean_workflow_state_for_db_safe [] []).2.1 "audio_data" [255, 216, 0],
   (clean_workflow_state_for_db_safe [] []).2.2 "transcript" [0xD800] (by decide)⟩

/-- C2 counterexample: loading a persisted state containing a length-only
placeholder can propagate an exception rather than yield a minimal valid
state.  `stBadW` stores `interview_id` as the placeholder
`<binary_data:4_bytes>`; cleaning maps it to `None`, the first
`LangGraphState(**clean_dict)` call fails, and the unprotected fallback call
receives `interview_id=clean_dict.get('interview_id', 1) = None` and fails
too, so `safe_restore_state` raises.  Under the same constructor model a
well-typed `interview_id` restores fine, so the failure is the fallback
path, not a degenerate constructor. -/
theorem safe_restore_state_spec_counterexample :
    codesStartWith (strOfCodes "<binary_data:")
        (strOfCodes "<binary_data:4_bytes>") = true ∧
    (safe_restore_state constructW [("interview_id", .pyInt 3)]).isSome = true ∧
    (safe_restore_state constructW stBadW).isSome = false :=
  ⟨by decide, by rfl, by rfl⟩

/-- C2 (amended): the cleaned dict contains none of the binary-bearing
fields and no placeholder string (`<binary_data:` / `<audio_bytes:`
prefixed) survives the cleaning — each is mapped to `None`, never
reprocessed as audio; when constructing the full state from the cleaned
dict fails, `safe_restore_state` returns exactly the result of the fallback
construction from the six defaulted `minimal_fields`, so loading succeeds
whenever that fallback construction succeeds and propagates the
constructor's failure otherwise. -/
theorem safe_restore_state_spec
    (construct : List (String × PyVal) → Option LangGraphState)
    (st : List (String × PyVal)) :
    (∀ kv ∈ safe_restore_clean st, binary_fields.contains kv.1 = false) ∧
    (∀ kv ∈ safe_restore_clean st, ∀ s, kv.2 = .pyStr s →
        codesStartWith (strOfCodes "<binary_data:") s = false ∧
        codesStartWith (strOfCodes "<audio_bytes:") s = false) ∧
    (∀ g, construct (safe_restore_clean st) = some g →
        safe_restore_state construct st = some g) ∧
    (construct (safe_restore_clean st) = none →
        safe_restore_state construct st =
          construct (minimal_fields (safe_restore_clean st))) := by
  refine ⟨?_, ?_, ?_, ?_⟩
  · intro kv hkv
    simp only [safe_restore_clean, List.mem_map] at hkv
    obtain ⟨kv', hkv', rfl⟩ := hkv
    have h2 := (List.mem_filter.mp hkv').2
    simpa using h2
  · intro kv hkv s hs
    simp only [safe_restore_clean, List.mem_map] at hkv
    obtain ⟨kv', -, rfl⟩ := hkv
    exact stripBinaryPlaceholder_eq_pyStr hs
  · intro g hsome
    simp only [safe_restore_state, hsome]
  · intro hnone
    simp only [safe_restore_state, hnone]

/-- Witness for C2 (amended): restoring `st2W` (no `interview_id` key, so
the fallback defaults it to `1`) fails the full construction but succeeds
through the `minimal_fields` fallback. -/
theorem safe_restore_state_spec_witness :
    safe_restore_state constructW st2W =
      constructW (minimal_fields (safe_restore_clean st2W)) ∧
    (safe_restore_state constructW st2W).isSome = true := by
  have h := (safe_restore_state_spec constructW st2W).2.2.2 (by rfl)
  exact ⟨h, by rw [h]; rfl⟩

/-- C5: in every reachable state of the session machine the cursor never
passes the question list, and the response list always has exactly `cursor`
entries (so `len(responses) == cursor` holds after each completed
`evaluate()`); both facts are preserved by every transition. -/
theorem reachable_cursor_responses (s : SessionState) (h : Reachable s) :
    s.cursor ≤ s.questions.length ∧ s.responses.length = s.cursor :=
  ⟨(reachable_MachineInv h).1, (reachable_MachineInv h).2.1⟩

/-- Witness for C5 at the initial state. -/
theorem reachable_cursor_responses_witness :
    initialState.cursor ≤ initialState.questions.length ∧
    initialState.responses.length = initialState.cursor :=
  reachable_cursor_responses initialState Reachable.init

/-- C6: once a session is in the terminal `completed` step, every transition
of the machine answers `Error(SessionClosed)` — no successor state is ever
produced, so the stored `SessionState` is left unchanged. -/
theorem completed_sessionClosed (s : SessionState) (h : s.step = .completed) :
    (∀ cfg gen, initializeSession cfg gen s = .error .sessionClosed) ∧
    presentQuestion s = .error .sessionClosed ∧
    (∀ audio text tr, ingestResponse audio text tr s = .error .sessionClosed) ∧
    (∀ ev, evaluate ev s = .error .sessionClosed) ∧
    decideNext s = .error .sessionClosed ∧
    complete s = .error .sessionClosed := by
  refine ⟨fun cfg gen => ?_, ?_, fun audio text tr => ?_, fun ev => ?_, ?_, ?_⟩
  · rw [initializeSession.eq_def, if_pos h]
  · rw [presentQuestion.eq_def, if_pos h]
  · rw [ingestResponse.eq_def, if_pos h]
  · rw [evaluate.eq_def, if_pos h]
  · rw [decideNext.eq_def, if_pos h]
  · rw [complete.eq_def, if_pos h]

/-- Witness for C6 at a concrete completed session. -/
theorem completed_sessionClosed_witness :
    decideNext { step := .completed, config := none, questions := [], cursor := 0,
                 responses := [], aggregateScore := 0, pendingTranscript := none } =
      .error .sessionClosed :=
  (completed_sessionClosed _ rfl).2.2.2.2.1

/-- C4: a completed `evaluate()` appends exactly one record (retaining the
transcript even when the evaluator failed) and recomputes the aggregate
score as the arithmetic mean of the evaluated scores only — unevaluated
records stay in the list but are excluded from the mean. -/
theorem evaluate_aggregate_mean (ev : Question → String → Except Unit Evaluation)
    (s : SessionState) (t : String) (s' : SessionState)
    (h1 : s.step = .evaluating) (h2 : s.pendingTranscript = some t)
    (hok : evaluate ev s = .ok s') :
    s'.responses.length = s.responses.length + 1 ∧
    (s'.responses.map fun r => r.transcript) =
      ((s.responses.map fun r => r.transcript) ++ [t]) ∧
    s'.aggregateScore =
      (if (evaluatedScores s'.responses).isEmpty then 0
       else ((evaluatedScores s'.responses).sum : ℚ) /
            ((evaluatedScores s'.responses).length : ℚ)) := by
  rw [evaluate.eq_def] at hok
  split at hok
  · simp at hok
  · split at hok
    · simp at hok
    · split at hok
      · simp at hok
      · next t0 hpend =>
          have ht : t0 = t := by
            rw [h2] at hpend
            exact (Option.some.inj hpend).symm
          subst ht
          split at hok
          · next hlt =>
              dsimp only at hok
              injection hok with h'
              subst h'
              refine ⟨by simp, ?_, rfl⟩
              · cases ev (s.questions.get ⟨s.cursor, hlt⟩) t0 <;> simp
          · simp at hok

/-- Witness for C4: evaluating the third answer of `sW` with a failing
evaluator yields scores `[8, 6, unevaluated]`, aggregate `mean(8,6) = 7`,
and a response list of length 3. -/
theorem evaluate_aggregate_mean_witness :
    evaluate evFailW sW = .ok s3W ∧
    s3W.responses.length = 3 ∧ s3W.aggregateScore = 7 := by
  have hok : evaluate evFailW sW = .ok s3W := by rfl
  have h := evaluate_aggregate_mean evFailW sW "a2" s3W rfl rfl hok
  refine ⟨hok, h.1.trans (by decide), ?_⟩
  show aggregateOf [rW8, rW6, rWu] = 7
  have hs : evaluatedScores [rW8, rW6, rWu] = [8, 6] := by decide
  simp only [aggregateOf, hs]
  norm_num

/-- C7: when the generator returns a non-empty list shorter than the
requested count (3 of 5), initialization still succeeds and the session
keeps exactly the returned questions; `decideNext()` reaches `completing`
exactly when the cursor has passed the last *returned* question, and keeps
the session in `awaiting_response` before that — the originally requested
count plays no role. -/
theorem initializeSession_shorter (cfg : InterviewConfig) (qs : List Question)
    (hne : qs ≠ []) (hlt : qs.length < cfg.requested_count) :
    initializeSession cfg (.ok qs) initialState =
      .ok { initialState with
              step := .questions_ready
              config := some cfg
              questions := qs } ∧
    (∀ s : SessionState, s.questions = qs → s.step = .evaluating →
        s.pendingTranscript = none →
        (s.cursor = qs.length → decideNext s = .ok { s with step := .completing }) ∧
        (s.cursor < qs.length →
          decideNext s = .ok { s with step := .awaiting_response })) := by
  constructor
  · rw [initializeSession.eq_def]
    rw [if_neg (by decide), if_neg (by decide)]
    dsimp only
    rw [if_neg (by simpa [List.isEmpty_iff] using hne)]
    rfl
  · intro s hq hstep hpend
    constructor <;> intro hcur
    · rw [decideNext.eq_def]
      rw [if_neg (by rw [hstep]; decide), if_neg (by simp [hstep])]
      rw [hpend]
      dsimp only
      rw [if_neg (by rw [hq, hcur]; exact lt_irrefl _)]
    · rw [decideNext.eq_def]
      rw [if_neg (by rw [hstep]; decide), if_neg (by simp [hstep])]
      rw [hpend]
      dsimp only
      rw [if_pos (by rw [hq]; exact hcur)]

/-- Witness for C7: requesting 5 questions but receiving 3 initializes a
session with 3 questions, and after the third evaluation `decideNext`
reaches `completing`. -/
theorem initializeSession_shorter_witness :
    initializeSession cfg5W (.ok qs3W) initialState = .ok sReadyW ∧
    sReadyW.questions.length = 3 ∧
    decideNext s3W = .ok { s3W with step := .completing } := by
  have h := initializeSession_shorter cfg5W qs3W (by decide) (by decide)
  exact ⟨h.1, by decide, (h.2 s3W rfl rfl rfl).1 (by decide)⟩

/-- C8: `normalize` is total on arbitrary byte buffers: a payload with no
recognizable container signature yields `Error(UnsupportedFormat)` carrying
the byte length and the detected-format detail (never an exception), and a
recognized payload yields 16kHz mono output tagged with its source
format. -/
theorem normalize_total (payload : List Nat) :
    (detectFormat payload = none →
      normalize payload = .error (.unsupportedFormat payload.length "unknown")) ∧
    (∀ f, detectFormat payload = some f →
      normalize payload = .ok (convertTo16kMonoPCM f payload) ∧
      (convertTo16kMonoPCM f payload).sampleRate = 16000 ∧
      (convertTo16kMonoPCM f payload).channels = 1 ∧
      (convertTo16kMonoPCM f payload).sourceFormat = f) := by
  constructor
  · intro h
    rw [normalize, h]
  · intro f h
    rw [normalize, h]
    exact ⟨rfl, rfl, rfl, rfl⟩

/-- Witness for C8: a 50-byte buffer with no recognizable signature is
rejected with its byte length, not an exception. -/
theorem normalize_total_witness :
    normalize (List.replicate 50 7) =
      .error (.unsupportedFormat 50 "unknown") :=
  (normalize_total (List.replicate 50 7)).1 (by decide)

end AIInterviewer
